import Mathlib

/-!
Verification of the data-acquisition-and-aggregation pipeline of
`dash_nba_style_evolution.py` (NBA team-stats dashboard), as a shallow
embedding in Lean.  Tables are modelled as lists; a pandas DataFrame with
its integer row-index is a list of (label, row) pairs.  Numeric statistics
are rationals; the one place where IEEE non-finite values matter (division
by a zero games-played count) is modelled explicitly with `PdVal`.
-/

/-- One provider row (before the season column is added): the numeric
fields the dashboard reads, with lower-cased names as produced by the
fetcher. -/
structure RawRow where
  team_name : String
  gp : Rat
  pts : Rat
  fg3m : Rat
  fg3a : Rat
deriving DecidableEq

/-- One row of the combined table: a provider row stamped with the
season identifier (`team_stats['season'] = season`). -/
structure Row where
  team_name : String
  gp : Rat
  pts : Rat
  fg3m : Rat
  fg3a : Rat
  season : String
deriving DecidableEq

/-- A DataFrame with its row index: a list of (index label, row) pairs.
`pd.concat(..., ignore_index=True)` produces labels 0..n-1. -/
abbrev Table := List (Nat × Row)

/-- Python `range(start, stop, -1)`: start, start-1, ..., stop+1. -/
def rangeDown (start stop : Nat) : List Nat :=
  (List.range (start - stop)).map (fun i => start - i)

/-- Source line 47: `season = f"{year}-{str(year+1)[2:]}"`. -/
def seasonStr (year : Nat) : String :=
  toString year ++ "-" ++ (toString (year + 1)).drop 2

/-- Source lines 45-48: the generated seasons list,
`for year in range(2024, 1989, -1)`. -/
def seasons : List String :=
  (rangeDown 2024 1989).map seasonStr

/-- Two-digit zero-padded decimal rendering, used to state the
spec format "YYYY-YY" where the suffix is (YYYY+1) mod 100. -/
def twoDigits (n : Nat) : String :=
  if n < 10 then "0" ++ toString n else toString n

/-- Source line 58: `team_stats['season'] = season` adds the season
column to a fetched table. -/
def addSeasonCol (s : String) (r : RawRow) : Row :=
  { team_name := r.team_name, gp := r.gp, pts := r.pts,
    fg3m := r.fg3m, fg3a := r.fg3a, season := s }

/-- Source lines 54-60, the accumulation loop of `main`: for each season
in order, fetch; if the result is non-empty, stamp it with the season and
append to the accumulation list.  (The `time.sleep(2)` between iterations
does not affect the accumulated data and is not modelled.)  The fetcher is
a parameter since the real one performs network calls. -/
def statsLoop (fetch : String → List RawRow) :
    List String → List (List Row) → List (List Row)
  | [], acc => acc
  | s :: rest, acc =>
    let team_stats := fetch s
    statsLoop fetch rest
      (if team_stats.isEmpty then acc
       else acc ++ [team_stats.map (addSeasonCol s)])

/-- The accumulation list `all_team_stats` after the loop, starting from
the empty list (source line 52). -/
def all_team_stats (fetch : String → List RawRow) (ss : List String) :
    List (List Row) :=
  statsLoop fetch ss []

/-- Source line 65: `pd.concat(all_team_stats, ignore_index=True)` —
row-wise concatenation with the index reset to labels 0..n-1. -/
def concatIgnoreIndex (dfs : List (List Row)) : Table :=
  dfs.flatten.enum

/-- Source lines 62-69: `combined_df` is assigned only when the
accumulation list is non-empty; `none` models the global name remaining
unbound (the all-empty branch only prints "No data fetched."). -/
def combined_df (fetch : String → List RawRow) : Option Table :=
  let ats := all_team_stats fetch seasons
  if ats.isEmpty then none else some (concatIgnoreIndex ats)

/-- Outcome of the presentation-layer startup check (source lines 72-271). -/
inductive StartupOutcome where
  | serves (t : Table)
  | reportsNoData
  | raisesNameError
deriving DecidableEq

/-- Source lines 72-271: after `main()` returns, the script evaluates
`if combined_df is not None`.  When `main` never assigned the global,
that lookup raises `NameError`; the designed `else` branch (line 271,
print "No data available to create dashboard") is reachable only if the
global held `None`, which no assignment ever produces. -/
def startup (fetch : String → List RawRow) : StartupOutcome :=
  match combined_df fetch with
  | none => .raisesNameError
  | some t => .serves t

/-- Example fetch results for the C4 scenario: three rows for "2023-24",
an empty table for every other season. -/
def exampleFetch : String → List RawRow := fun s =>
  if s == "2023-24" then
    [⟨"Boston Celtics", 82, 9000, 1200, 3300⟩,
     ⟨"Denver Nuggets", 82, 8800, 1000, 2900⟩,
     ⟨"Miami Heat", 82, 8500, 950, 2800⟩]
  else []

/-- A generic DataFrame (column names plus rows of numeric cells), the
shape of the provider response handled by `fetch_nba_team_stats`. -/
structure DF where
  cols : List String
  rows : List (List Rat)
deriving DecidableEq

/-- `pd.DataFrame()` of source line 39: zero rows and zero columns. -/
def emptyDF : DF := { cols := [], rows := [] }

/-- The column renaming of source line 33:
`df.columns = [col.lower() for col in df.columns]`. -/
def lowerCols (df : DF) : DF :=
  { cols := df.cols.map String.toLower, rows := df.rows }

/-- Source lines 14-39, `fetch_nba_team_stats`: the provider call and its
response processing are modelled as an `Except`-valued parameter (the real
one is a network endpoint); the `try` body lower-cases the column names
and returns the table unchanged otherwise, and the bare `except` returns
`pd.DataFrame()` so no error ever propagates to the caller. -/
def fetch_nba_team_stats (provider : String → Except String DF)
    (season : String) : DF :=
  match provider season with
  | Except.ok df => lowerCols df
  | Except.error _ => emptyDF

/-- Cache contents keyed by season: key, store timestamp, stored value.
Modelled from the spec: the persistent store behind `diskcache.Cache` and
`cache.memoize(expire=3600)` (source lines 10-13) is library code not in
src; section 4.1 of the design gives its contract. -/
structure CacheState (α : Type) where
  entries : List (String × Nat × α)
deriving DecidableEq

/-- First entry for a key, the stored (timestamp, value) pair. -/
def cacheLookup {α : Type} (st : CacheState α) (key : String) :
    Option (Nat × α) :=
  (st.entries.find? (fun e => e.1 == key)).map (fun e => e.2)

/-- Modelled from the spec: `get_or_compute(key, ttl)` — look the key up;
if present and not older than `ttl`, return the stored value without
invoking the computation; otherwise invoke it, store the result with the
current timestamp, and return it.  The returned Bool records whether the
underlying computation was invoked. -/
def getOrCompute {α : Type} (compute : String → α) (ttl now : Nat)
    (st : CacheState α) (key : String) : α × CacheState α × Bool :=
  match cacheLookup st key with
  | some (t, v) =>
    if now ≤ t + ttl then (v, st, false)
    else
      let v2 := compute key
      (v2, ⟨(key, now, v2) :: st.entries⟩, true)
  | none =>
    let v2 := compute key
    (v2, ⟨(key, now, v2) :: st.entries⟩, true)

/-- Storage availability: the cache directory either works or is
unavailable.  Modelled from the spec: storage-layer errors must not crash
the pipeline; an unavailable cache degrades to direct fetching. -/
inductive Storage (α : Type) where
  | avail (st : CacheState α)
  | unavailable
deriving DecidableEq

/-- Modelled from the spec: the memoized fetch with fallible storage —
when the storage layer is unavailable every call falls back to computing
directly (and stores nothing); otherwise it behaves as `getOrCompute`. -/
def getOrComputeF {α : Type} (compute : String → α) (ttl now : Nat)
    (sto : Storage α) (key : String) : α × Storage α × Bool :=
  match sto with
  | Storage.unavailable => (compute key, Storage.unavailable, true)
  | Storage.avail st =>
    let r := getOrCompute compute ttl now st key
    (r.1, Storage.avail r.2.1, r.2.2)

/-- The aggregation loop of `main` run through the fallible cached
fetcher: each season is fetched via `getOrComputeF`, threading the
storage state; non-empty results are stamped and accumulated exactly as
in `statsLoop`. -/
def statsLoopCached (compute : String → List RawRow) (ttl now : Nat) :
    List String → Storage (List RawRow) → List (List Row) →
      List (List Row) × Storage (List RawRow)
  | [], sto, acc => (acc, sto)
  | s :: rest, sto, acc =>
    let r := getOrComputeF compute ttl now sto s
    statsLoopCached compute ttl now rest r.2.1
      (if r.1.isEmpty then acc else acc ++ [r.1.map (addSeasonCol s)])

/-- A pandas numeric cell that may hold an IEEE non-finite value:
`nonfinite` stands for the NaN or infinity produced by dividing by a zero
games-played count. -/
inductive PdVal where
  | num (q : Rat)
  | nonfinite
deriving DecidableEq

/-- Pandas float column division: finite quotient when the denominator is
non-zero, NaN/infinity (here `PdVal.nonfinite`) when it is zero. -/
def pdDiv (a b : Rat) : PdVal :=
  if b = 0 then PdVal.nonfinite else PdVal.num (a / b)

/-- Source lines 127-155, `update_points_graph`: filter the combined
table to the selected season into a copy, derive the points-per-game
column on the copy (`filtered_df['pts'] / filtered_df['gp']`, line 140),
and chart it.  The result pairs each team with its derived value; the
second component is the combined table as left by the callback — the
derived column lives only in the local copy. -/
def update_points_graph (combined : Table) (selected_season : String) :
    List (String × PdVal) × Table :=
  let filtered := combined.filter (fun p => p.2.season == selected_season)
  (filtered.map (fun p => (p.2.team_name, pdDiv p.2.pts p.2.gp)), combined)

/-- Source lines 161-190, `update_threes_graph`: same shape as
`update_points_graph` with `filtered_df['fg3m'] / filtered_df['gp']`
(line 175). -/
def update_threes_graph (combined : Table) (selected_season : String) :
    List (String × PdVal) × Table :=
  let filtered := combined.filter (fun p => p.2.season == selected_season)
  (filtered.map (fun p => (p.2.team_name, pdDiv p.2.fg3m p.2.gp)), combined)

/-- The index labels of the rows of one season group, as handed to the
aggregation lambda of source line 200 (`x.index`). -/
def groupLabels (t : Table) (s : String) : List Nat :=
  (t.filter (fun p => p.2.season == s)).map Prod.fst

/-- Pandas `combined_df.loc[labels, ...]`: for each requested label, all
rows of the table carrying that label, concatenated in label order. -/
def locSelect (t : Table) (labels : List Nat) : Table :=
  labels.flatMap (fun ℓ => t.filter (fun q => q.1 == ℓ))

/-- Source line 200, the aggregation lambda of `update_threes_trend`:
`x.sum() / combined_df.loc[x.index, 'gp'].sum()` — the group-wise fg3a
sum divided by the gp values looked up in the whole table at the group
row labels. -/
def trendValueCode (t : Table) (s : String) : Rat :=
  let grp := t.filter (fun p => p.2.season == s)
  ((grp.map (fun p => p.2.fg3a)).sum) /
    ((locSelect t (groupLabels t s)).map (fun q => q.2.gp)).sum

/-- The league trend as the spec defines it (section 4.3): sum of
three-point attempts across all rows of the season divided by sum of
games played across all rows of the season. -/
def trendValueSpec (t : Table) (s : String) : Rat :=
  let grp := t.filter (fun p => p.2.season == s)
  ((grp.map (fun p => p.2.fg3a)).sum) / ((grp.map (fun p => p.2.gp)).sum)

/-- Insertion into a lexicographically sorted list of strings. -/
def insertSorted (s : String) : List String → List String
  | [] => [s]
  | x :: xs => if s ≤ x then s :: x :: xs else x :: insertSorted s xs

/-- Insertion sort on strings, modelling the ascending key order of
`groupby` plus `sort_values('season')` (source lines 199-201). -/
def sortStrings (l : List String) : List String :=
  l.foldr insertSorted []

/-- Source lines 196-245, `update_threes_trend`: group the combined table
by season, aggregate each group with the line-200 lambda, sort by season
ascending; one (season, value) point per distinct season.  The combined
table passes through unchanged. -/
def update_threes_trend (combined : Table) (_selected_season : String) :
    List (String × Rat) × Table :=
  let keys := sortStrings ((combined.map (fun p => p.2.season)).eraseDups)
  (keys.map (fun s => (s, trendValueCode combined s)), combined)

/-- One CSV line for a row of the combined table. -/
def csvRow (r : Row) : String :=
  r.team_name ++ "," ++ toString r.gp ++ "," ++ toString r.pts ++ "," ++
    toString r.fg3m ++ "," ++ toString r.fg3a ++ "," ++ r.season

/-- `combined_df.to_csv(..., index=False)` (source lines 263-267): a
header of the column names and one line per row, the index column
omitted. -/
def csvOfTable (t : Table) : String :=
  (["team_name,gp,pts,fg3m,fg3a,season"] ++
    t.map (fun p => csvRow p.2)).foldr (fun a b => a ++ "\x0a" ++ b) ""

/-- Source lines 252-267, `export_data`: serialize the combined table to
CSV; the table itself is read, never written. -/
def export_data (combined : Table) : String × Table :=
  (csvOfTable combined, combined)

/-- The two-team example of the spec for season "X": (attempts=20,
games=2) and (attempts=30, games=3). -/
def trendExample : Table :=
  concatIgnoreIndex
    [[⟨"Team A", 2, 200, 30, 20, "X"⟩, ⟨"Team B", 3, 310, 40, 30, "X"⟩]]

/-- A single-row table whose games-played count is zero, the failing
input for the per-game divisions. -/
def zeroGpTable : Table :=
  concatIgnoreIndex [[⟨"Ghost Team", 0, 82, 10, 25, "2023-24"⟩]]

/-- A provider table with upper-case column names, used to exercise the
success path of the fetcher. -/
def sampleProviderDF : DF :=
  { cols := ["TEAM_NAME", "GP", "PTS", "FG3M", "FG3A"],
    rows := [[1, 82, 9000, 1200, 3300]] }

/-- A cache is consistent with a computation when every stored value is
what the computation would return for its key (true of any cache only
ever filled by `getOrCompute` for that computation). -/
def cacheConsistent {α : Type} (compute : String → α)
    (st : CacheState α) : Prop :=
  ∀ e ∈ st.entries, e.2.2 = compute e.1

/-- Consistency lifted to possibly-unavailable storage. -/
def storageConsistent {α : Type} (compute : String → α) :
    Storage α → Prop
  | Storage.avail st => cacheConsistent compute st
  | Storage.unavailable => True

/- Theorems. -/

/-- C3: the generated season-identifier sequence runs from 2024 down to
1990 inclusive, is strictly descending by year, every identifier has the
form "YYYY-YY" with suffix (YYYY+1) mod 100, the first element is
"2024-25", the last is "1990-91", and all identifiers are distinct. -/
theorem seasons_list_c3 :
    seasons.head? = some "2024-25" ∧
    seasons.getLast? = some "1990-91" ∧
    (rangeDown 2024 1989).head? = some 2024 ∧
    (rangeDown 2024 1989).getLast? = some 1990 ∧
    List.Pairwise (fun a b => b < a) (rangeDown 2024 1989) ∧
    seasons = (rangeDown 2024 1989).map
      (fun y => toString y ++ "-" ++ twoDigits ((y + 1) % 100)) ∧
    seasons.Nodup := by
  refine ⟨by decide, by decide, by decide, by decide, by decide, by decide, by decide⟩

/-- C1: when every fetch returns an empty table, the script does not
report the no-data condition: `combined_df` is never assigned, so the
check `combined_df is not None` raises `NameError` and the designed
"No data available to create dashboard" report is never reached. -/
theorem startup_all_empty_c1 :
    startup (fun _ => []) = StartupOutcome.raisesNameError ∧
    startup (fun _ => []) ≠ StartupOutcome.reportsNoData := by
  constructor
  · decide
  · decide

/-- Accumulator lemma for the aggregation loop: the accumulation list is
only ever appended to. -/
theorem statsLoop_append (fetch : String → List RawRow) (ss : List String)
    (acc : List (List Row)) :
    statsLoop fetch ss acc = acc ++ statsLoop fetch ss [] := by
  induction ss generalizing acc with
  | nil => simp [statsLoop]
  | cons s rest ih =>
    simp only [statsLoop]
    by_cases h : (fetch s).isEmpty
    · rw [if_pos h, if_pos h, ih]
    · rw [if_neg h, if_neg h, ih (acc ++ [(fetch s).map (addSeasonCol s)]),
        ih ([] ++ [(fetch s).map (addSeasonCol s)])]
      simp

/-- Unfolding lemma for the accumulation list on a cons cell. -/
theorem all_team_stats_cons (fetch : String → List RawRow) (s : String)
    (ss : List String) :
    all_team_stats fetch (s :: ss) =
      (if (fetch s).isEmpty then [] else [(fetch s).map (addSeasonCol s)]) ++
        all_team_stats fetch ss := by
  unfold all_team_stats
  simp only [statsLoop]
  by_cases h : (fetch s).isEmpty
  · rw [if_pos h, if_pos h]
    simp
  · rw [if_neg h, if_neg h]
    rw [statsLoop_append fetch ss ([] ++ [(fetch s).map (addSeasonCol s)])]
    simp

/-- C4: the aggregation loop keeps exactly the non-empty fetch results in
sequence order, each stamped with its season; the combined table is their
in-order concatenation; fetching 3 rows for "2023-24" and 0 rows for
"2022-23" yields a 3-row combined table, every row with season
"2023-24". -/
theorem aggregation_loop_c4 :
    (∀ (fetch : String → List RawRow) (ss : List String),
      all_team_stats fetch ss = ss.filterMap (fun s =>
        let ts := fetch s
        if ts.isEmpty then none else some (ts.map (addSeasonCol s)))) ∧
    (∀ (fetch : String → List RawRow) (ss : List String),
      (concatIgnoreIndex (all_team_stats fetch ss)).map Prod.snd =
        (ss.filterMap (fun s =>
          let ts := fetch s
          if ts.isEmpty then none else some (ts.map (addSeasonCol s)))).flatten) ∧
    ((concatIgnoreIndex
        (all_team_stats exampleFetch ["2023-24", "2022-23"])).length = 3 ∧
      (concatIgnoreIndex
        (all_team_stats exampleFetch ["2023-24", "2022-23"])).all
          (fun p => p.2.season == "2023-24") = true) := by
  have base : ∀ (fetch : String → List RawRow) (ss : List String),
      all_team_stats fetch ss = ss.filterMap (fun s =>
        let ts := fetch s
        if ts.isEmpty then none else some (ts.map (addSeasonCol s))) := by
    intro fetch ss
    induction ss with
    | nil => rfl
    | cons s rest ih =>
      rw [all_team_stats_cons, ih]
      by_cases h : (fetch s).isEmpty
      · have h2 : fetch s = [] := by simpa using h
        simp [List.filterMap_cons, h2]
      · have h2 : ¬fetch s = [] := by simpa using h
        simp [List.filterMap_cons, h, h2]
  refine ⟨base, ?_, by decide, by decide⟩
  intro fetch ss
  rw [base]
  unfold concatIgnoreIndex
  rw [List.enum_map_snd]

/-- Filtering a table by an index label that no row carries yields no
rows. -/
theorem filter_label_eq_nil (l : Table) (a : Nat)
    (h : a ∉ l.map Prod.fst) :
    l.filter (fun q => q.1 == a) = [] := by
  induction l with
  | nil => rfl
  | cons p rest ih =>
    simp only [List.map_cons, List.mem_cons, not_or] at h
    simp [List.filter_cons, Ne.symm h.1, ih h.2]

/-- In a table with pairwise-distinct index labels, filtering by the
label of a member row yields exactly that row. -/
theorem filter_label_singleton (l : Table)
    (h : (l.map Prod.fst).Nodup) (p : Nat × Row) (hp : p ∈ l) :
    l.filter (fun q => q.1 == p.1) = [p] := by
  induction l with
  | nil => exact absurd hp (List.not_mem_nil p)
  | cons q rest ih =>
    simp only [List.map_cons, List.nodup_cons] at h
    rcases List.mem_cons.mp hp with he | hmem
    · subst he
      simp only [List.filter_cons, beq_self_eq_true, if_pos]
      rw [filter_label_eq_nil rest p.1 h.1]
    · have hne : q.1 ≠ p.1 := by
        intro he
        exact h.1 (he ▸ List.mem_map.mpr ⟨p, hmem, rfl⟩)
      simp only [List.filter_cons]
      rw [if_neg (by simpa using hne)]
      exact ih h.2 hmem

/-- With pairwise-distinct index labels, the table-wide lookup at the
labels of the season group selects exactly the rows of that season. -/
theorem locSelect_groupLabels (t : Table)
    (h : (t.map Prod.fst).Nodup) (s : String) :
    locSelect t (groupLabels t s) = t.filter (fun p => p.2.season == s) := by
  unfold locSelect groupLabels
  have key : ∀ grp : Table, (∀ p ∈ grp, p ∈ t) →
      (grp.map Prod.fst).flatMap (fun ℓ => t.filter (fun q => q.1 == ℓ)) =
        grp := by
    intro grp hsub
    induction grp with
    | nil => rfl
    | cons p rest ih =>
      simp only [List.map_cons, List.flatMap_cons]
      rw [filter_label_singleton t h p (hsub p (List.mem_cons_self p rest)),
        ih (fun q hq => hsub q (List.mem_cons_of_mem p hq))]
      rfl
  exact key _ (fun p hp => List.mem_of_mem_filter hp)

/-- The index labels of a freshly concatenated combined table are
pairwise distinct. -/
theorem concat_labels_nodup (dfs : List (List Row)) :
    ((concatIgnoreIndex dfs).map Prod.fst).Nodup := by
  unfold concatIgnoreIndex
  rw [List.enum_map_fst]
  exact List.nodup_range _

/-- C10: after construction the combined table carries index labels
exactly 0..n-1, and the trend computation lookup of gp at a season group
row labels selects precisely the rows of that season and no others. -/
theorem combined_index_alignment_c10 (dfs : List (List Row)) (s : String) :
    (concatIgnoreIndex dfs).map Prod.fst =
      List.range (concatIgnoreIndex dfs).length ∧
    locSelect (concatIgnoreIndex dfs)
        (groupLabels (concatIgnoreIndex dfs) s) =
      (concatIgnoreIndex dfs).filter (fun p => p.2.season == s) := by
  constructor
  · unfold concatIgnoreIndex
    rw [List.enum_map_fst, List.enum_length]
  · exact locSelect_groupLabels _ (concat_labels_nodup dfs) s

/-- C2: on every combined table the code league-trend computation (group
fg3a sum divided by the whole-table gp lookup at the group row labels)
equals the specified value (season fg3a sum over season gp sum), and the
two-team spec example (20,2) and (30,3) evaluates to 10. -/
theorem league_trend_refinement_c2 :
    (∀ (dfs : List (List Row)) (s : String),
      trendValueCode (concatIgnoreIndex dfs) s =
        trendValueSpec (concatIgnoreIndex dfs) s) ∧
    trendValueCode trendExample "X" = 10 := by
  constructor
  · intro dfs s
    unfold trendValueCode trendValueSpec
    rw [locSelect_groupLabels _ (concat_labels_nodup dfs) s]
  · show ((trendExample.filter (fun p => p.2.season == "X")).map
        (fun p => p.2.fg3a)).sum /
      ((locSelect trendExample (groupLabels trendExample "X")).map
        (fun q => q.2.gp)).sum = 10
    have h1 : (trendExample.filter (fun p => p.2.season == "X")).map
        (fun p => p.2.fg3a) = [20, 30] := rfl
    have h2 : (locSelect trendExample (groupLabels trendExample "X")).map
        (fun q => q.2.gp) = [2, 3] := rfl
    rw [h1, h2]
    norm_num

/-- C5: the fetch operation never propagates a provider error to its
caller — on any error it returns the zero-row table `pd.DataFrame()` —
and on success it returns the provider table with every column name
lower-cased and no other change. -/
theorem fetch_error_handling_c5
    (provider : String → Except String DF) (season : String) :
    (∀ e, provider season = Except.error e →
      fetch_nba_team_stats provider season = emptyDF ∧
        (fetch_nba_team_stats provider season).rows.length = 0) ∧
    (∀ df, provider season = Except.ok df →
      fetch_nba_team_stats provider season =
        { cols := df.cols.map String.toLower, rows := df.rows }) := by
  constructor
  · intro e he
    unfold fetch_nba_team_stats
    rw [he]
    exact ⟨rfl, rfl⟩
  · intro df hdf
    unfold fetch_nba_team_stats
    rw [hdf]
    rfl

/-- Witness for C5: a provider that times out yields the empty table and
a provider that answers yields its table with lower-cased column names. -/
theorem fetch_error_handling_c5_witness :
    fetch_nba_team_stats (fun _ => Except.error "timeout") "2023-24" =
      emptyDF ∧
    fetch_nba_team_stats (fun _ => Except.ok sampleProviderDF) "2023-24" =
      { cols := sampleProviderDF.cols.map String.toLower,
        rows := sampleProviderDF.rows } := by
  constructor
  · exact ((fetch_error_handling_c5 (fun _ => Except.error "timeout")
      "2023-24").1 "timeout" rfl).1
  · exact (fetch_error_handling_c5 (fun _ => Except.ok sampleProviderDF)
      "2023-24").2 sampleProviderDF rfl

/-- C6: a lookup hit that is not older than the one-hour TTL is returned
as stored without invoking the computation; an absent or expired entry
causes the computation to run and its result to be stored under the
current timestamp; in particular a second call within the TTL window
after a first call returns the first result without recomputing. -/
theorem cache_memoize_c6 {α : Type} (compute : String → α) (key : String)
    (st : CacheState α) (now now2 t : Nat) (v : α) :
    (cacheLookup st key = some (t, v) → now ≤ t + 3600 →
      getOrCompute compute 3600 now st key = (v, st, false)) ∧
    (cacheLookup st key = none →
      getOrCompute compute 3600 now st key =
        (compute key, ⟨(key, now, compute key) :: st.entries⟩, true)) ∧
    (cacheLookup st key = some (t, v) → t + 3600 < now →
      getOrCompute compute 3600 now st key =
        (compute key, ⟨(key, now, compute key) :: st.entries⟩, true)) ∧
    (cacheLookup st key = none → now2 ≤ now + 3600 →
      getOrCompute compute 3600 now2
          (getOrCompute compute 3600 now st key).2.1 key =
        ((getOrCompute compute 3600 now st key).1,
          (getOrCompute compute 3600 now st key).2.1, false)) := by
  refine ⟨?_, ?_, ?_, ?_⟩
  · intro h1 h2
    simp [getOrCompute, h1, h2]
  · intro h1
    simp [getOrCompute, h1]
  · intro h1 h2
    simp [getOrCompute, h1, Nat.not_le.mpr h2]
  · intro h1 h2
    have e1 : getOrCompute compute 3600 now st key =
        (compute key, ⟨(key, now, compute key) :: st.entries⟩, true) := by
      simp [getOrCompute, h1]
    rw [e1]
    simp [getOrCompute, cacheLookup, List.find?, h2]

/-- Witness for C6: with an entry stored at time 0, a call at time 100
returns the stored table, leaves the cache unchanged, and does not invoke
the computation. -/
theorem cache_memoize_c6_witness :
    getOrCompute (fun _ => sampleProviderDF) 3600 100
        ⟨[("2023-24", 0, sampleProviderDF)]⟩ "2023-24" =
      (sampleProviderDF, ⟨[("2023-24", 0, sampleProviderDF)]⟩, false) :=
  (cache_memoize_c6 (fun _ => sampleProviderDF) "2023-24"
      ⟨[("2023-24", 0, sampleProviderDF)]⟩ 100 0 0 sampleProviderDF).1
    rfl (by decide)

/-- The memoized fetch on a consistent cache always returns what the
computation would return, and keeps the cache consistent. -/
theorem getOrCompute_consistent {α : Type} (compute : String → α)
    (ttl now : Nat) (st : CacheState α) (key : String)
    (h : cacheConsistent compute st) :
    (getOrCompute compute ttl now st key).1 = compute key ∧
    cacheConsistent compute (getOrCompute compute ttl now st key).2.1 := by
  cases hl : cacheLookup st key with
  | none =>
    refine ⟨by simp [getOrCompute, hl], ?_⟩
    simp only [getOrCompute, hl]
    intro e he
    rcases List.mem_cons.mp he with he1 | he2
    · subst he1; rfl
    · exact h e he2
  | some tv =>
    obtain ⟨t1, v1⟩ := tv
    obtain ⟨e0, hfind, he0⟩ := Option.map_eq_some'.mp hl
    have hmem := List.mem_of_find?_eq_some hfind
    have hkey : e0.1 = key := by
      have := List.find?_some hfind
      simpa using this
    have hv : v1 = compute key := by
      have hc := h e0 hmem
      rw [hkey] at hc
      rw [he0] at hc
      exact hc
    by_cases hle : now ≤ t1 + ttl
    · refine ⟨?_, ?_⟩
      · simp [getOrCompute, hl, hle, hv]
      · simp only [getOrCompute, hl, if_pos hle]
        exact h
    · refine ⟨by simp [getOrCompute, hl, hle], ?_⟩
      simp only [getOrCompute, hl, if_neg hle]
      intro e he
      rcases List.mem_cons.mp he with he1 | he2
      · subst he1; rfl
      · exact h e he2

/-- The aggregation loop driven through the (possibly unavailable,
consistent) cached fetcher accumulates exactly what the uncached loop
accumulates. -/
theorem statsLoopCached_eq (compute : String → List RawRow)
    (ttl now : Nat) (ss : List String) :
    ∀ (sto : Storage (List RawRow)) (acc : List (List Row)),
      storageConsistent compute sto →
      (statsLoopCached compute ttl now ss sto acc).1 =
        statsLoop compute ss acc := by
  induction ss with
  | nil => intro sto acc _; rfl
  | cons s rest ih =>
    intro sto acc h
    cases sto with
    | unavailable =>
      simp only [statsLoopCached, getOrComputeF, statsLoop]
      exact ih Storage.unavailable _ trivial
    | avail st =>
      have hc := getOrCompute_consistent compute ttl now st s h
      simp only [statsLoopCached, getOrComputeF, statsLoop, hc.1]
      exact ih (Storage.avail _) _ hc.2

/-- C7: with the storage layer unavailable the pipeline still runs, every
fetch computes directly, and the accumulated data — hence the combined
table — is identical to what a working (fresh) cache produces. -/
theorem cache_unavailable_c7 (compute : String → List RawRow)
    (ttl now : Nat) (ss : List String) :
    (statsLoopCached compute ttl now ss Storage.unavailable []).1 =
      all_team_stats compute ss ∧
    (statsLoopCached compute ttl now ss (Storage.avail ⟨[]⟩) []).1 =
      all_team_stats compute ss ∧
    concatIgnoreIndex
        (statsLoopCached compute ttl now ss Storage.unavailable []).1 =
      concatIgnoreIndex
        (statsLoopCached compute ttl now ss (Storage.avail ⟨[]⟩) []).1 := by
  have h1 := statsLoopCached_eq compute ttl now ss Storage.unavailable []
    trivial
  have h2 := statsLoopCached_eq compute ttl now ss (Storage.avail ⟨[]⟩) []
    (by intro e he; exact absurd he (List.not_mem_nil e))
  exact ⟨h1, h2, by rw [h1, h2]⟩

/-- C8: the per-game computations are unguarded — on a row whose
games-played count is zero, both derived columns hold the IEEE
non-finite value of the division, so the row is neither skipped nor
given a defined marker. -/
theorem zero_gp_division_c8 :
    (update_points_graph zeroGpTable "2023-24").1 =
      [("Ghost Team", PdVal.nonfinite)] ∧
    (update_threes_graph zeroGpTable "2023-24").1 =
      [("Ghost Team", PdVal.nonfinite)] := by
  constructor
  · rfl
  · rfl

/-- C9: every presentation-layer query (both per-game bar-chart queries,
the league trend query, and the CSV export) returns the combined table
exactly as it received it; the derived columns exist only in the local
filtered copies, never in the combined table. -/
theorem queries_frame_c9 (t : Table) (sel : String) :
    (update_points_graph t sel).2 = t ∧
    (update_threes_graph t sel).2 = t ∧
    (update_threes_trend t sel).2 = t ∧
    (export_data t).2 = t :=
  ⟨rfl, rfl, rfl, rfl⟩
